import Mathlib

/-!
Verification development for the light-curve transformer autoencoder
training script (`scripts/train_transformer_autoencoder.py`).

The script's numeric values are Python/torch floats; we model them with
`FVal`, an exact-rational carrier extended with NaN and signed infinities,
with IEEE-style propagation for the operations the script uses
(sums, squared differences, means, and the `<` comparison used for
best-checkpoint selection).
-/

namespace LCGen

/-- Model of a floating-point scalar: NaN, plus/minus infinity, or an exact
finite value (rationals stand in for the finite doubles). -/
inductive FVal where
  | nan : FVal
  | pinf : FVal
  | ninf : FVal
  | fin (x : ℚ) : FVal
deriving DecidableEq, Repr

/-- Whether a value is NaN. -/
def FVal.isNan : FVal → Bool
  | .nan => true
  | _ => false

/-- Negation with IEEE-style handling of NaN and infinities. -/
def fneg : FVal → FVal
  | .nan => .nan
  | .pinf => .ninf
  | .ninf => .pinf
  | .fin x => .fin (-x)

/-- Addition with IEEE-style propagation: NaN absorbs, opposite infinities
give NaN. -/
def fadd : FVal → FVal → FVal
  | .nan, _ => .nan
  | _, .nan => .nan
  | .pinf, .ninf => .nan
  | .ninf, .pinf => .nan
  | .pinf, _ => .pinf
  | _, .pinf => .pinf
  | .ninf, _ => .ninf
  | _, .ninf => .ninf
  | .fin a, .fin b => .fin (a + b)

/-- Subtraction, via negation. -/
def fsub (a b : FVal) : FVal := fadd a (fneg b)

/-- Multiplication with IEEE-style propagation: NaN absorbs, infinity times
zero gives NaN, signs multiply. -/
def fmul : FVal → FVal → FVal
  | .nan, _ => .nan
  | _, .nan => .nan
  | .pinf, .pinf => .pinf
  | .pinf, .ninf => .ninf
  | .ninf, .pinf => .ninf
  | .ninf, .ninf => .pinf
  | .pinf, .fin b => if b = 0 then .nan else if 0 < b then .pinf else .ninf
  | .fin a, .pinf => if a = 0 then .nan else if 0 < a then .pinf else .ninf
  | .ninf, .fin b => if b = 0 then .nan else if 0 < b then .ninf else .pinf
  | .fin a, .ninf => if a = 0 then .nan else if 0 < a then .ninf else .pinf
  | .fin a, .fin b => .fin (a * b)

/-- Division with IEEE-style propagation: NaN absorbs, infinity over
infinity and zero over zero give NaN, finite over zero gives a signed
infinity. -/
def fdiv : FVal → FVal → FVal
  | .nan, _ => .nan
  | _, .nan => .nan
  | .pinf, .pinf => .nan
  | .pinf, .ninf => .nan
  | .ninf, .pinf => .nan
  | .ninf, .ninf => .nan
  | .pinf, .fin b => if 0 ≤ b then .pinf else .ninf
  | .ninf, .fin b => if 0 ≤ b then .ninf else .pinf
  | .fin _, .pinf => .fin 0
  | .fin _, .ninf => .fin 0
  | .fin a, .fin b =>
      if b = 0 then (if a = 0 then .nan else if 0 < a then .pinf else .ninf)
      else .fin (a / b)

/-- The strict comparison Python applies in `val < best`: any comparison
with NaN is false, infinities compare as extremes. -/
def flt : FVal → FVal → Bool
  | .nan, _ => false
  | _, .nan => false
  | _, .ninf => false
  | .ninf, _ => true
  | .pinf, _ => false
  | .fin _, .pinf => true
  | .fin a, .fin b => decide (a < b)

/-- Sum of a list of float values, left to right from zero, mirroring the
Python accumulators that start at `0` and add one term per batch. -/
def sumF (l : List FVal) : FVal := l.foldl fadd (.fin 0)

/-- Mean-squared error of two flat lists, as `nn.MSELoss` computes it:
the mean over all elements of the squared differences. -/
def mseFlat (pred tgt : List FVal) : FVal :=
  fdiv (sumF (List.zipWith (fun a b => fmul (fsub a b) (fsub a b)) pred tgt))
    (.fin (pred.length : ℚ))

/-- Mean-squared error of two (batch, seq) grids: torch reduces the mean
over every element, i.e. over the row-major flattening. -/
def mseGrid (pred tgt : List (List FVal)) : FVal :=
  mseFlat pred.flatten tgt.flatten

/-- Boolean-mask selection on one row, as `x[mask]` flattens in order. -/
def maskSelect (m : List Bool) (xs : List FVal) : List FVal :=
  ((xs.zip m).filter (fun p => p.2)).map (fun p => p.1)

/-- Boolean-mask selection on a grid, row-major, as torch's `x[mask]`. -/
def maskSelectGrid (m : List (List Bool)) (g : List (List FVal)) : List FVal :=
  ((g.zip m).map (fun p => maskSelect p.2 p.1)).flatten

/-- Elementwise negation of a grid of booleans, as `~mask`. -/
def negGrid (m : List (List Bool)) : List (List Bool) :=
  m.map (fun row => row.map (fun b => !b))

/-!
Seeded pseudo-randomness.  The script draws all randomness from generators
seeded by `args.seed` (`torch.manual_seed`, `np.random.seed`, and a fresh
`torch.Generator().manual_seed(args.seed)` for the split), so every random
choice is a pure function of the seed.  We model the generator with a
64-bit linear congruential step; the specific constants are irrelevant to
the claims, which depend only on seed-determinism.
-/

/-- One step of the modelled 64-bit generator. -/
def lcg (s : ℕ) : ℕ :=
  (s * 6364136223846793005 + 1442695040888963407) % 18446744073709551616

/-- Seeded selection shuffle: repeatedly pick a remaining element by index
and emit it.  Models `torch.randperm(n, generator)` as used by
`random_split`: a permutation determined entirely by the seed. -/
def shuffleGo : ℕ → ℕ → List ℕ → List ℕ
  | 0, _, l => l
  | _ + 1, _, [] => []
  | fuel + 1, s, a :: t =>
      let l := a :: t
      let s' := lcg s
      let k := s' % l.length
      l.getD k 0 :: shuffleGo fuel s' (l.eraseIdx k)

/-- Seed-determined permutation of `0, ..., n-1`. -/
def randperm (seed n : ℕ) : List ℕ := shuffleGo n seed (List.range n)

/-- `val_size = int(len(dataset) * args.val_split)`: the configured
fraction of `n`, rounded down (Python `int` truncation, nonnegative). -/
def val_size (n : ℕ) (frac : ℚ) : ℕ := (⌊(n : ℚ) * frac⌋).toNat

/-- `random_split(dataset, [train_size, val_size], generator.manual_seed(seed))`:
a seed-determined permutation of the indices, the first `train_size` of
which form the training subset and the rest the validation subset. -/
def random_split (seed n : ℕ) (frac : ℚ) : List ℕ × List ℕ :=
  let vs := val_size n frac
  let ts := n - vs
  let perm := randperm seed n
  (perm.take ts, perm.drop ts)

/-- Order in which a `DataLoader` visits sample indices: a seed-dependent
shuffle when constructed with `shuffle=True`, the fixed sequential order
otherwise. -/
def loaderOrder (shuffled : Bool) (seed n : ℕ) : List ℕ :=
  if shuffled then randperm seed n else List.range n

/-- The validation loader in `main` is built with `shuffle=False`. -/
def main_val_order (seed n : ℕ) : List ℕ := loaderOrder false seed n

/-!
Dataset construction.  `LightCurveDataset.__init__` only converts the two
arrays to tensors; the script contains no shape or emptiness validation
anywhere, so the embedded constructor is total and always succeeds.  The
error vocabulary below exists only to state the spec's claim about it.
-/

/-- Error vocabulary used by the spec (`ShapeMismatchError`,
`EmptyDatasetError`); no corresponding exception exists in the script. -/
inductive DatasetError where
  | shapeMismatch : DatasetError
  | emptyDataset : DatasetError
deriving DecidableEq, Repr

/-- The dataset: the two arrays as stored by `LightCurveDataset.__init__`. -/
structure LightCurveDataset where
  flux : List (List FVal)
  timestamps : List (List FVal)
deriving DecidableEq, Repr

/-- `LightCurveDataset.__init__`: stores the arrays unconditionally.  The
`Except` codomain records that the constructor has no failing path. -/
def LightCurveDataset.init (flux timestamps : List (List FVal)) :
    Except DatasetError LightCurveDataset :=
  Except.ok { flux := flux, timestamps := timestamps }

/-- Whether an `Except`-valued construction succeeded. -/
def isOkE {ε α : Type} : Except ε α → Bool
  | .ok _ => true
  | .error _ => false

/-- `__len__`: the number of rows of the flux array. -/
def LightCurveDataset.len (d : LightCurveDataset) : ℕ := d.flux.length

/-- `__getitem__`: the flux row and timestamp row at an index. -/
def LightCurveDataset.getItem (d : LightCurveDataset) (i : ℕ) :
    Option (List FVal) × Option (List FVal) :=
  (d.flux.get? i, d.timestamps.get? i)

/-!
Data loading.  `load_lightcurve_data` counts NaNs in each array, prints the
count as a warning when positive, and replaces them via
`np.nan_to_num(a, nan=0.0)` (which also maps infinities to the largest
finite doubles); an array with no NaN is returned untouched.
-/

/-- Largest finite double, the value `np.nan_to_num` substitutes for
positive infinity. -/
def maxFloat : ℚ := 2 ^ 1024 - 2 ^ 971

/-- `np.nan_to_num(x, nan=0.0)` on one scalar. -/
def nan_to_num0 : FVal → FVal
  | .nan => .fin 0
  | .pinf => .fin maxFloat
  | .ninf => .fin (-maxFloat)
  | .fin x => .fin x

/-- Number of NaN entries in one row. -/
def countNansRow (r : List FVal) : ℕ :=
  (r.filter (fun v => v.isNan)).length

/-- Number of NaN entries in a grid, `np.sum(np.isnan(a))`. -/
def countNansGrid (g : List (List FVal)) : ℕ :=
  (g.map countNansRow).sum

/-- `load_lightcurve_data`: returns the (possibly NaN-cleaned) flux and
timestamp grids together with the NaN counts reported for each. -/
def load_lightcurve_data (flux timestamps : List (List FVal)) :
    List (List FVal) × List (List FVal) × ℕ × ℕ :=
  let nf := countNansGrid flux
  let nt := countNansGrid timestamps
  let flux' := if 0 < nf then flux.map (fun r => r.map nan_to_num0) else flux
  let timestamps' :=
    if 0 < nt then timestamps.map (fun r => r.map nan_to_num0) else timestamps
  (flux', timestamps', nf, nt)

/-!
Block masking.  The script imports `dynamic_block_mask` from
`lcgen.data.masking`, whose source is not part of this repository snapshot;
it is modelled below from the spec's §4.1 algorithm.
-/

/-- Number of `true` entries of a mask. -/
def countTrue (m : List Bool) : ℕ := (m.filter (fun b => b)).length

/-- Mark positions `start, ..., start+len-1` of a mask `true`, leaving the
rest unchanged (idempotent on already-`true` positions). -/
def markRange (start len : ℕ) (m : List Bool) : List Bool :=
  List.zipWith (fun i b => if start ≤ i ∧ i < start + len then true else b)
    (List.range m.length) m

/-- Repeatedly place a contiguous block of size `bsize` at a seeded random
valid offset until at least `target` positions are masked or the attempt
budget runs out. -/
def placeBlocks : ℕ → ℕ → ℕ → ℕ → List Bool → List Bool
  | 0, _, _, _, m => m
  | budget + 1, s, target, bsize, m =>
      if target ≤ countTrue m then m
      else
        let L := m.length
        let s' := lcg s
        let start := if bsize ≤ L then s' % (L - bsize + 1) else 0
        placeBlocks budget s' target bsize (markRange start bsize m)

/-- Placement-attempt budget bounding the loop of `placeBlocks`. -/
def attemptBudget : ℕ := 100

/-- Result of one masking invocation: the flux copy with masked positions
zeroed, the boolean mask, and the realized block size and mask ratio. -/
structure MaskResult where
  fluxMasked : List FVal
  mask : List Bool
  blockSize : ℕ
  achievedRatio : ℚ
deriving DecidableEq, Repr

/-- Modelled from the spec: `lcgen.data.masking.dynamic_block_mask` is
imported by the training script but its source file is not under `src/`.
Per spec §4.1 it draws a target mask ratio uniformly from
`[min_ratio, max_ratio]` (clamping the target masked count to `[1, L]`),
draws a block size uniformly from `[min_block, min(max_block, L)]`
(shrinking to `L` when `L < min_block`), places random contiguous blocks
until the target count is reached or an attempt budget is exhausted, and
returns a masked copy of the flux (masked positions zeroed — the input
sequence itself is never mutated), the mask, the block size used, and the
achieved ratio.  Randomness is a pure function of the explicit seed. -/
def dynamic_block_mask (seed : ℕ) (flux : List FVal)
    (minBlock maxBlock : ℕ) (minRatio maxRatio : ℚ) : MaskResult :=
  let L := flux.length
  let s1 := lcg seed
  let ratio := minRatio + (maxRatio - minRatio) * ((s1 % 1000000 : ℕ) : ℚ) / 1000000
  let target := min L (max 1 (round (ratio * (L : ℚ))).toNat)
  let s2 := lcg s1
  let bsize :=
    if L < minBlock then L
    else minBlock + s2 % (min maxBlock L - minBlock + 1)
  let mask := placeBlocks attemptBudget s2 target bsize (List.replicate L false)
  { fluxMasked := List.zipWith (fun f mb => if mb then FVal.fin 0 else f) flux mask,
    mask := mask,
    blockSize := bsize,
    achievedRatio := (countTrue mask : ℚ) / (L : ℚ) }

/-!
Batch assembly (`collate_with_masking`).
-/

/-- One dataset item as `__getitem__` returns it. -/
structure Sample where
  flux : List FVal
  time : List FVal
deriving DecidableEq, Repr

/-- The masking bounds with which `collate_with_masking` is configured. -/
structure CollateConfig where
  min_block_size : ℕ
  max_block_size : Option ℕ
  min_mask_ratio : ℚ
  max_mask_ratio : ℚ
deriving DecidableEq, Repr

/-- The dictionary a collate call returns: two-channel inputs
`[masked_flux, mask_indicator]`, targets, timestamps, masks, and the
diagnostic per-sample block sizes and mask ratios. -/
structure BatchOut where
  input : List (List (FVal × FVal))
  target : List (List FVal)
  time : List (List FVal)
  mask : List (List Bool)
  blockSizes : List ℕ
  maskRatios : List ℚ
deriving DecidableEq, Repr

/-- The mask channel value `mask.float()` at one position. -/
def maskIndicator (b : Bool) : FVal := if b then .fin 1 else .fin 0

/-- `seq_len` as the collate function reads it from the stacked batch:
the (common) length of the samples' flux rows. -/
def seq_len_of (batch : List Sample) : ℕ :=
  ((batch.head?.map (fun s => s.flux.length)).getD 0)

/-- The per-sample loop of `collate_with_masking`: one independent
`dynamic_block_mask` call per sample, consuming successive seeds from the
shared random stream. -/
def collate_go (minB maxB : ℕ) (minR maxR : ℚ) : ℕ → List Sample → List MaskResult
  | _, [] => []
  | s, smp :: rest =>
      dynamic_block_mask s smp.flux minB maxB minR maxR ::
        collate_go minB maxB minR maxR (s + 1) rest

/-- `collate_with_masking`: defaults the maximum block size to
`seq_len // 2` when it is `None`, masks each sample independently, stacks
`[masked_flux, mask_indicator]` as the input channels, and returns the
original flux rows untouched as the target. -/
def collate_with_masking (cfg : CollateConfig) (seed : ℕ) (batch : List Sample) :
    BatchOut :=
  let seqLen := seq_len_of batch
  let maxB := cfg.max_block_size.getD (seqLen / 2)
  let results :=
    collate_go cfg.min_block_size maxB cfg.min_mask_ratio cfg.max_mask_ratio seed batch
  { input := results.map (fun r => r.fluxMasked.zip (r.mask.map maskIndicator)),
    target := batch.map (fun s => s.flux),
    time := batch.map (fun s => s.time),
    mask := results.map (fun r => r.mask),
    blockSizes := results.map (fun r => r.blockSize),
    maskRatios := results.map (fun r => r.achievedRatio) }

/-!
Training and evaluation loops.  The external model is the spec's black box
`forward(input, timestamps) -> reconstruction`; autograd is embedded as a
gradient oracle applied to the scalar loss as a function of the
parameters — `loss.backward()` on `loss = criterion(x_recon, x_target)`
computes exactly the gradient of that function, and `train_epoch` passes
no other loss to it.  `P` is the parameter state, `G` the gradient value,
`OS` the optimizer's internal (AdamW) state; gradient clipping and the
optimizer step are the corresponding opaque collaborators.
-/

/-- The mutable training state of `main`: model parameters, optimizer
internal state, and the scheduler's step counter (advanced once per batch
for `OneCycleLR`). -/
structure TrainState (P OS : Type) where
  params : P
  optState : OS
  schedStep : ℕ
deriving DecidableEq, Repr

/-- The three loss values one batch produces: the full-sequence loss that
is optimized and the masked/unmasked losses tracked for monitoring. -/
structure BatchMetrics where
  total : FVal
  masked : FVal
  unmasked : FVal
deriving DecidableEq, Repr

section Training

variable {P G OS : Type}

/-- The body of the `train_epoch` loop for one batch: forward pass,
full-sequence MSE loss, monitoring-only masked/unmasked MSE, backward pass
on the full-sequence loss only, gradient clipping, unconditional optimizer
step, and scheduler step. -/
def train_batch_step
    (forward : P → List (List (FVal × FVal)) → List (List FVal) → List (List FVal))
    (gradOracle : (P → FVal) → P → G)
    (clipGrad : G → G)
    (optStep : OS → P → G → P × OS)
    (st : TrainState P OS) (b : BatchOut) : TrainState P OS × BatchMetrics :=
  let recon := forward st.params b.input b.time
  let loss := mseGrid recon b.target
  let maskedLoss :=
    mseFlat (maskSelectGrid b.mask recon) (maskSelectGrid b.mask b.target)
  let unmaskedLoss :=
    mseFlat (maskSelectGrid (negGrid b.mask) recon)
      (maskSelectGrid (negGrid b.mask) b.target)
  let g := clipGrad (gradOracle
    (fun p => mseGrid (forward p b.input b.time) b.target) st.params)
  let stepped := optStep st.optState st.params g
  (⟨stepped.1, stepped.2, st.schedStep + 1⟩,
   ⟨loss, maskedLoss, unmaskedLoss⟩)

/-- The accumulator pass of `train_epoch`: running sums of the three loss
signals and the batch count, threaded through every batch in order. -/
def train_epoch_go
    (forward : P → List (List (FVal × FVal)) → List (List FVal) → List (List FVal))
    (gradOracle : (P → FVal) → P → G)
    (clipGrad : G → G)
    (optStep : OS → P → G → P × OS) :
    TrainState P OS → FVal → FVal → FVal → ℕ → List BatchOut →
      TrainState P OS × FVal × FVal × FVal × ℕ
  | st, a, m, u, n, [] => (st, a, m, u, n)
  | st, a, m, u, n, b :: rest =>
      let r := train_batch_step forward gradOracle clipGrad optStep st b
      train_epoch_go forward gradOracle clipGrad optStep r.1
        (fadd a r.2.total) (fadd m r.2.masked) (fadd u r.2.unmasked) (n + 1) rest

/-- `train_epoch`: one pass over the training batches, returning the new
training state and the epoch means of the three loss signals. -/
def train_epoch
    (forward : P → List (List (FVal × FVal)) → List (List FVal) → List (List FVal))
    (gradOracle : (P → FVal) → P → G)
    (clipGrad : G → G)
    (optStep : OS → P → G → P × OS)
    (st : TrainState P OS) (batches : List BatchOut) :
    TrainState P OS × BatchMetrics :=
  let r := train_epoch_go forward gradOracle clipGrad optStep st
    (.fin 0) (.fin 0) (.fin 0) 0 batches
  (r.1,
   ⟨fdiv r.2.1 (.fin (r.2.2.2.2 : ℚ)),
    fdiv r.2.2.1 (.fin (r.2.2.2.2 : ℚ)),
    fdiv r.2.2.2.1 (.fin (r.2.2.2.2 : ℚ))⟩)

/-- `validate_epoch`: the same batch traversal and loss computation under
`torch.no_grad()`.  It receives only the parameters and produces only
metrics — structurally it has no gradient oracle, no optimizer, and no
state output, mirroring that the evaluation loop cannot mutate the model. -/
def validate_epoch
    (forward : P → List (List (FVal × FVal)) → List (List FVal) → List (List FVal))
    (p : P) (batches : List BatchOut) : BatchMetrics :=
  let per := batches.map (fun b =>
    let recon := forward p b.input b.time
    (mseGrid recon b.target,
     mseFlat (maskSelectGrid b.mask recon) (maskSelectGrid b.mask b.target),
     mseFlat (maskSelectGrid (negGrid b.mask) recon)
       (maskSelectGrid (negGrid b.mask) b.target)))
  ⟨fdiv (sumF (per.map (fun t => t.1))) (.fin (per.length : ℚ)),
   fdiv (sumF (per.map (fun t => t.2.1))) (.fin (per.length : ℚ)),
   fdiv (sumF (per.map (fun t => t.2.2))) (.fin (per.length : ℚ))⟩

/-- One iteration of the epoch loop in `main`: train on the training
batches, then validate on the validation batches with the parameters the
training pass produced. -/
def epoch_step
    (forward : P → List (List (FVal × FVal)) → List (List FVal) → List (List FVal))
    (gradOracle : (P → FVal) → P → G)
    (clipGrad : G → G)
    (optStep : OS → P → G → P × OS)
    (st : TrainState P OS) (trainBatches valBatches : List BatchOut) :
    TrainState P OS × BatchMetrics × BatchMetrics :=
  let tr := train_epoch forward gradOracle clipGrad optStep st trainBatches
  let vm := validate_epoch forward tr.1.params valBatches
  (tr.1, tr.2, vm)

end Training

/-!
Checkpoints.  The three `torch.save` call sites in `main` write different
key sets; `Option` fields record which loss values each checkpoint
contains.
-/

/-- The model construction configuration `main` builds and stores in every
checkpoint (fields from the `TransformerConfig(...)` call site). -/
structure TransformerConfig where
  input_dim : ℕ
  input_length : ℕ
  encoder_dims : List ℕ
  nhead : ℕ
  num_layers : ℕ
  num_transformer_blocks : ℕ
  dropout : ℚ
  min_period : ℚ
  max_period : ℚ
deriving DecidableEq, Repr

/-- One persisted checkpoint dictionary; `M` is the model `state_dict`
payload and `O` the optimizer `state_dict` payload. -/
structure CheckpointRecord (M O : Type) where
  epoch : ℕ
  model_state_dict : M
  optimizer_state_dict : O
  train_loss : Option FVal
  val_loss : Option FVal
  config : TransformerConfig
deriving DecidableEq, Repr

/-- The best-model `torch.save` dictionary: epoch, model and optimizer
state, train loss, validation loss, and config. -/
def save_best_checkpoint {M O : Type} (epoch : ℕ) (ms : M) (os : O)
    (trainLoss valLoss : FVal) (cfg : TransformerConfig) : CheckpointRecord M O :=
  ⟨epoch, ms, os, some trainLoss, some valLoss, cfg⟩

/-- The periodic `torch.save` dictionary: epoch, model and optimizer
state, validation loss, and config (no train loss). -/
def save_periodic_checkpoint {M O : Type} (epoch : ℕ) (ms : M) (os : O)
    (valLoss : FVal) (cfg : TransformerConfig) : CheckpointRecord M O :=
  ⟨epoch, ms, os, none, some valLoss, cfg⟩

/-- The final `torch.save` dictionary: epoch count, model and optimizer
state, and config — no loss values. -/
def save_final_checkpoint {M O : Type} (epochs : ℕ) (ms : M) (os : O)
    (cfg : TransformerConfig) : CheckpointRecord M O :=
  ⟨epochs, ms, os, none, none, cfg⟩

/-!
Best-checkpoint selection: `best_val_loss = float('inf')`, and after each
epoch the best snapshot is written exactly when
`val_metrics['total_loss'] < best_val_loss` under Python float comparison.
-/

/-- The running best as the loop updates it: replaced exactly when the new
value compares strictly below it. -/
def runBest (best : FVal) (vals : List FVal) : FVal :=
  vals.foldl (fun b v => if flt v b then v else b) best

/-- The epoch loop's best-checkpoint writes, as `(epoch, val_loss)` pairs
in the order written, starting from a given epoch index and running best. -/
def bestLoopGo : ℕ → FVal → List FVal → List (ℕ × FVal)
  | _, _, [] => []
  | e, best, v :: rest =>
      if flt v best then (e, v) :: bestLoopGo (e + 1) v rest
      else bestLoopGo (e + 1) best rest

/-- All best-checkpoint writes of a run with the given per-epoch
validation losses, with the running best initialized to `+inf`. -/
def best_checkpoint_saves (vals : List FVal) : List (ℕ × FVal) :=
  bestLoopGo 0 .pinf vals

/-!
CLI surface: the argparse arguments of `main` and the collate
configuration `main` builds from them.
-/

/-- The command-line arguments of the script (argparse destinations). -/
structure Args where
  input : String
  output_dir : String
  epochs : ℕ
  batch_size : ℕ
  lr : ℚ
  encoder_dims : List ℕ
  nhead : ℕ
  num_layers : ℕ
  num_transformer_blocks : ℕ
  mask_ratio : ℚ
  block_size : ℕ
  val_split : ℚ
  seed : ℕ
  device : String
  save_every : ℕ
deriving DecidableEq, Repr

/-- The `partial(collate_with_masking, ...)` configuration `main` builds:
the minimum block size and minimum mask ratio are hard-coded, only the
maxima come from the CLI. -/
def main_collate_config (a : Args) : CollateConfig :=
  { min_block_size := 1,
    max_block_size := some a.block_size,
    min_mask_ratio := 1 / 10,
    max_mask_ratio := a.mask_ratio }

/-!
Concrete instantiations used by the per-claim witnesses and
counterexamples below.
-/

/-- A one-sample, one-position batch whose mask bit is the parameter; the
input, target and time channels are identical across the two values. -/
def c1wBatch (mk : Bool) : BatchOut :=
  ⟨[[(FVal.fin 1, FVal.fin 0)]], [[FVal.fin 2]], [[FVal.fin 3]], [[mk]], [1], [1 / 2]⟩

/-- A concrete forward oracle: every output position carries the scalar
parameter. -/
def c1wForward (p : ℚ) (inp : List (List (FVal × FVal))) (_t : List (List FVal)) :
    List (List FVal) :=
  inp.map (fun row => row.map (fun _ => FVal.fin p))

/-- A concrete gradient oracle returning the parameter itself. -/
def c1wGrad (_f : ℚ → FVal) (p : ℚ) : ℚ := p

/-- A concrete optimizer step that adds the gradient and counts steps. -/
def c1wOpt (o : ℕ) (p g : ℚ) : ℚ × ℕ := (p + g, o + 1)

/-- A concrete starting training state. -/
def c1wState : TrainState ℚ ℕ := ⟨5, 0, 0⟩

/-- A forward oracle that yields a NaN reconstruction, as a diverged model
would. -/
def c4xForward (_p : ℚ) (_inp : List (List (FVal × FVal))) (_t : List (List FVal)) :
    List (List FVal) :=
  [[FVal.nan]]

/-- A gradient oracle for the NaN scenario. -/
def c4xGrad (_f : ℚ → FVal) (p : ℚ) : ℚ := p

/-- An optimizer step which visibly moves the parameters, so that a taken
step is distinguishable from a skipped one. -/
def c4xOpt (o : ℕ) (p _g : ℚ) : ℚ × ℕ := (p + 1, o)

/-- A one-sample batch for the NaN-loss scenario. -/
def c4xBatch : BatchOut :=
  ⟨[[(FVal.fin 1, FVal.fin 0)]], [[FVal.fin 0]], [[FVal.fin 0]], [[false]], [1], [1 / 2]⟩

/-- Starting state for the NaN-loss scenario. -/
def c4xState : TrainState ℚ ℕ := ⟨0, 0, 0⟩

/-- The concrete `TransformerConfig` that `main` builds with the default
CLI arguments on sequences of length 100. -/
def c5Cfg : TransformerConfig :=
  ⟨2, 100, [64, 128, 256, 512], 4, 4, 2, 0, 278 / 100000, 1640⟩

/-- The default CLI arguments of the script's argparse declaration. -/
def c10wArgs : Args :=
  ⟨"data/mock_lightcurves/timeseries.h5", "models/transformer", 50, 32, 1 / 10000,
   [64, 128, 256, 512], 4, 4, 2, 1 / 2, 32, 3 / 20, 42, "auto", 10⟩

/-- A concrete two-position sample for exercising the collate default. -/
def c10wSample : Sample :=
  ⟨[FVal.fin 1, FVal.fin 2], [FVal.fin 0, FVal.fin 1]⟩

/-!
Supporting lemmas.
-/

/-- Zipping a pointwise combination with a mapped copy of the second list
fuses into a single pointwise pass. -/
theorem zip_zipWith_map {α β γ δ : Type} (g : α → β → γ) (h : β → δ) :
    ∀ (as : List α) (bs : List β),
      (List.zipWith g as bs).zip (bs.map h)
        = List.zipWith (fun a b => (g a b, h b)) as bs := by
  intro as
  induction as with
  | nil => intro bs; simp
  | cons a as ih =>
      intro bs
      cases bs with
      | nil => simp
      | cons b bs => simp [ih bs]

/-- The masked-flux channel a masking call returns is the original flux
with exactly the masked positions zeroed. -/
theorem dynamic_block_mask_fluxMasked (seed : ℕ) (flux : List FVal)
    (minB maxB : ℕ) (minR maxR : ℚ) :
    (dynamic_block_mask seed flux minB maxB minR maxR).fluxMasked
      = List.zipWith (fun f mb => if mb then FVal.fin 0 else f) flux
          (dynamic_block_mask seed flux minB maxB minR maxR).mask := rfl

/-- The input channels the collate loop assembles are determined
pointwise by the original flux and the per-sample masks. -/
theorem collate_go_inputs (minB maxB : ℕ) (minR maxR : ℚ) :
    ∀ (s : ℕ) (batch : List Sample),
      (collate_go minB maxB minR maxR s batch).map
          (fun r => r.fluxMasked.zip (r.mask.map maskIndicator))
        = List.zipWith
            (fun (smp : Sample) (m : List Bool) =>
              List.zipWith
                (fun f mb =>
                  (if mb then FVal.fin 0 else f, if mb then FVal.fin 1 else FVal.fin 0))
                smp.flux m)
            batch
            ((collate_go minB maxB minR maxR s batch).map (fun r => r.mask)) := by
  intro s batch
  induction batch generalizing s with
  | nil => rfl
  | cons smp rest ih =>
      simp only [collate_go, List.map_cons, List.zipWith_cons_cons]
      refine congrArg₂ _ ?_ (ih (s + 1))
      rw [dynamic_block_mask_fluxMasked]
      rw [zip_zipWith_map (fun f mb => if mb then FVal.fin 0 else f) maskIndicator]
      simp [maskIndicator]

/-- The scheduler counter advances exactly once per processed batch:
`train_epoch_go` never skips a batch. -/
theorem train_epoch_go_schedStep {P G OS : Type}
    (forward : P → List (List (FVal × FVal)) → List (List FVal) → List (List FVal))
    (gradOracle : (P → FVal) → P → G) (clipGrad : G → G)
    (optStep : OS → P → G → P × OS) :
    ∀ (batches : List BatchOut) (st : TrainState P OS) (a m u : FVal) (n : ℕ),
      (train_epoch_go forward gradOracle clipGrad optStep st a m u n batches).1.schedStep
        = st.schedStep + batches.length := by
  intro batches
  induction batches with
  | nil => intro st a m u n; simp [train_epoch_go]
  | cons b rest ih =>
      intro st a m u n
      have hstep :
          (train_batch_step forward gradOracle clipGrad optStep st b).1.schedStep
            = st.schedStep + 1 := rfl
      simp only [train_epoch_go]
      rw [ih]
      rw [hstep]
      simp [List.length_cons]
      omega

/-- Every index recorded by the best-checkpoint loop is at least the
starting epoch index. -/
theorem bestLoopGo_mem_le :
    ∀ (vals : List FVal) (e : ℕ) (best : FVal) (i : ℕ) (v : FVal),
      (i, v) ∈ bestLoopGo e best vals → e ≤ i := by
  intro vals
  induction vals with
  | nil => intro e best i v h; simp [bestLoopGo] at h
  | cons w rest ih =>
      intro e best i v h
      by_cases hw : flt w best = true
      · rw [bestLoopGo, if_pos hw] at h
        rcases List.mem_cons.mp h with h1 | h2
        · cases h1; exact le_refl _
        · have := ih (e + 1) w i v h2; omega
      · rw [bestLoopGo, if_neg hw] at h
        have := ih (e + 1) best i v h; omega

/-- Membership in the best-checkpoint loop's output characterized: epoch
`k` (counting from the loop's starting index) is recorded exactly when its
validation loss compares strictly below the running best over the earlier
epochs. -/
theorem bestLoopGo_mem_iff :
    ∀ (vals : List FVal) (e : ℕ) (best : FVal) (k : ℕ) (v : FVal),
      ((e + k, v) ∈ bestLoopGo e best vals ↔
        vals.get? k = some v ∧ flt v (runBest best (vals.take k)) = true) := by
  intro vals
  induction vals with
  | nil => intro e best k v; simp [bestLoopGo]
  | cons w rest ih =>
      intro e best k v
      cases k with
      | zero =>
          simp only [Nat.add_zero, List.take_zero, List.get?]
          by_cases hw : flt w best = true
          · rw [bestLoopGo, if_pos hw]
            constructor
            · intro h
              rcases List.mem_cons.mp h with h1 | h2
              · have hv : v = w := (Prod.mk.injEq _ _ _ _).mp h1 |>.2
                subst hv
                exact ⟨rfl, by simpa [runBest] using hw⟩
              · exact absurd (bestLoopGo_mem_le rest (e + 1) w e v h2) (by omega)
            · rintro ⟨h1, _⟩
              have hv : v = w := by injection h1 with h1; exact h1.symm
              subst hv
              exact List.mem_cons_self _ _
          · rw [bestLoopGo, if_neg hw]
            constructor
            · intro h
              exact absurd (bestLoopGo_mem_le rest (e + 1) best e v h) (by omega)
            · rintro ⟨h1, h2⟩
              have hv : v = w := by injection h1 with h1; exact h1.symm
              subst hv
              exact absurd (by simpa [runBest] using h2) hw
      | succ k =>
          have hidx : e + (k + 1) = (e + 1) + k := by omega
          have hrb : runBest best ((w :: rest).take (k + 1))
              = runBest (if flt w best then w else best) (rest.take k) := by
            simp [runBest, List.take_succ_cons]
          by_cases hw : flt w best = true
          · rw [bestLoopGo, if_pos hw]
            constructor
            · intro h
              rcases List.mem_cons.mp h with h1 | h2
              · exfalso
                have := (Prod.mk.injEq _ _ _ _).mp h1 |>.1
                omega
              · have := (ih (e + 1) w k v).mp (by rw [← hidx]; exact (hidx ▸ h2))
                refine ⟨this.1, ?_⟩
                rw [hrb, if_pos hw]
                exact this.2
            · rintro ⟨h1, h2⟩
              rw [hrb, if_pos hw] at h2
              have := (ih (e + 1) w k v).mpr ⟨h1, h2⟩
              exact List.mem_cons_of_mem _ (hidx ▸ this)
          · rw [bestLoopGo, if_neg hw]
            constructor
            · intro h
              have := (ih (e + 1) best k v).mp (hidx ▸ h)
              refine ⟨this.1, ?_⟩
              rw [hrb, if_neg hw]
              exact this.2
            · rintro ⟨h1, h2⟩
              rw [hrb, if_neg hw] at h2
              have := (ih (e + 1) best k v).mpr ⟨h1, h2⟩
              exact hidx ▸ this

/-- Removing the selected element and re-consing it in front is a
permutation. -/
theorem getD_cons_eraseIdx_perm :
    ∀ (l : List ℕ) (k : ℕ), k < l.length → (l.getD k 0 :: l.eraseIdx k).Perm l := by
  intro l
  induction l with
  | nil => intro k h; simp at h
  | cons a t ih =>
      intro k h
      cases k with
      | zero => simp
      | succ k =>
          have hk : k < t.length := by simpa using h
          have step : (t.getD k 0 :: a :: t.eraseIdx k).Perm (a :: t.getD k 0 :: t.eraseIdx k) :=
            List.Perm.swap a (t.getD k 0) (t.eraseIdx k)
          have tail : (a :: t.getD k 0 :: t.eraseIdx k).Perm (a :: t) :=
            (ih k hk).cons a
          simpa using step.trans tail

/-- The seeded selection shuffle permutes its input. -/
theorem shuffleGo_perm : ∀ (fuel s : ℕ) (l : List ℕ), (shuffleGo fuel s l).Perm l := by
  intro fuel
  induction fuel with
  | zero => intro s l; simp [shuffleGo]
  | succ fuel ih =>
      intro s l
      cases l with
      | nil => simp [shuffleGo]
      | cons a t =>
          have hk : lcg s % (a :: t).length < (a :: t).length :=
            Nat.mod_lt _ (by simp)
          have h1 :
              (shuffleGo (fuel + 1) s (a :: t)).Perm
                ((a :: t).getD (lcg s % (a :: t).length) 0 ::
                  (a :: t).eraseIdx (lcg s % (a :: t).length)) := by
            rw [shuffleGo]
            exact (ih (lcg s) _).cons _
          exact h1.trans (getD_cons_eraseIdx_perm (a :: t) _ hk)

/-- The modelled `randperm` is a permutation of `0, ..., n-1`. -/
theorem randperm_perm (seed n : ℕ) : (randperm seed n).Perm (List.range n) :=
  shuffleGo_perm n seed (List.range n)

/-- The modelled `randperm` has length `n`. -/
theorem randperm_length (seed n : ℕ) : (randperm seed n).length = n := by
  simpa using (randperm_perm seed n).length_eq

/-- The validation size never exceeds the dataset size when the configured
fraction is at most one. -/
theorem val_size_le (n : ℕ) (f : ℚ) (h1 : f ≤ 1) : val_size n f ≤ n := by
  have hmul : (n : ℚ) * f ≤ (n : ℚ) :=
    mul_le_of_le_one_right (by positivity) h1
  have hfl : ⌊(n : ℚ) * f⌋ ≤ (n : ℤ) := by
    calc ⌊(n : ℚ) * f⌋ ≤ ⌊(n : ℚ)⌋ := Int.floor_le_floor hmul
    _ = (n : ℤ) := Int.floor_natCast n
  exact Int.toNat_le.mpr hfl

/-- A NaN entry at any grid position makes the grid's NaN count positive. -/
theorem countNansGrid_pos (g : List (List FVal)) (i j : ℕ)
    (h : (g.get? i).bind (fun r => r.get? j) = some FVal.nan) :
    0 < countNansGrid g := by
  rcases Option.bind_eq_some.mp h with ⟨row, hrow, hj⟩
  have hrmem : row ∈ g := List.get?_mem hrow
  have hnmem : FVal.nan ∈ row := List.get?_mem hj
  have hpos : 0 < countNansRow row := by
    have : FVal.nan ∈ row.filter (fun v => v.isNan) :=
      List.mem_filter.mpr ⟨hnmem, rfl⟩
    exact List.length_pos.mpr (List.ne_nil_of_mem this)
  have hle : countNansRow row ≤ countNansGrid g :=
    List.single_le_sum (fun x _ => Nat.zero_le x) _
      (List.mem_map_of_mem countNansRow hrmem)
  omega

/-- Applying the NaN-cleaning map turns a NaN grid entry into zero. -/
theorem nanAt_map_zero (g : List (List FVal)) (i j : ℕ)
    (h : (g.get? i).bind (fun r => r.get? j) = some FVal.nan) :
    (((g.map (fun r => r.map nan_to_num0)).get? i).bind (fun r => r.get? j))
      = some (FVal.fin 0) := by
  rcases Option.bind_eq_some.mp h with ⟨row, hrow, hj⟩
  rw [List.get?_map, hrow]
  simp only [Option.map_some', Option.some_bind]
  rw [List.get?_map, hj]
  rfl

/-!
The claims.
-/

/-- C1: In every training batch the loss that is backpropagated and
optimized is the mean-squared error between reconstruction and target
over the entire sequence; the gradient handed to the optimizer is the
gradient of exactly that whole-sequence function, and the masked-only and
unmasked-only losses are monitoring values that contribute nothing to the
parameter or optimizer update: two batches agreeing on input, target and
timestamps but differing arbitrarily in the mask (which only the
monitoring losses read) produce identical updated training states. -/
theorem c1_full_sequence_loss_is_optimized {P G OS : Type}
    (forward : P → List (List (FVal × FVal)) → List (List FVal) → List (List FVal))
    (gradOracle : (P → FVal) → P → G) (clipGrad : G → G)
    (optStep : OS → P → G → P × OS)
    (st : TrainState P OS) (b1 b2 : BatchOut)
    (hin : b1.input = b2.input) (htg : b1.target = b2.target)
    (htm : b1.time = b2.time) :
    (train_batch_step forward gradOracle clipGrad optStep st b1).1
        = (train_batch_step forward gradOracle clipGrad optStep st b2).1
      ∧ (train_batch_step forward gradOracle clipGrad optStep st b1).2.total
        = mseGrid (forward st.params b1.input b1.time) b1.target
      ∧ (train_batch_step forward gradOracle clipGrad optStep st b1).1.params
        = (optStep st.optState st.params (clipGrad (gradOracle
            (fun p => mseGrid (forward p b1.input b1.time) b1.target) st.params))).1 := by
  refine ⟨?_, rfl, rfl⟩
  simp only [train_batch_step, hin, htg, htm]

/-- Witness for C1: concrete oracles and two concrete batches that differ
only in the mask. -/
theorem c1_witness :
    (c1wBatch false).input = (c1wBatch true).input
      ∧ (c1wBatch false).target = (c1wBatch true).target
      ∧ (c1wBatch false).time = (c1wBatch true).time
      ∧ (train_batch_step c1wForward c1wGrad id c1wOpt c1wState (c1wBatch false)).1
        = (train_batch_step c1wForward c1wGrad id c1wOpt c1wState (c1wBatch true)).1
      ∧ (train_batch_step c1wForward c1wGrad id c1wOpt c1wState (c1wBatch false)).2.total
        = mseGrid (c1wForward c1wState.params (c1wBatch false).input (c1wBatch false).time)
            (c1wBatch false).target :=
  ⟨rfl, rfl, rfl,
   (c1_full_sequence_loss_is_optimized c1wForward c1wGrad id c1wOpt c1wState
      (c1wBatch false) (c1wBatch true) rfl rfl rfl).1,
   (c1_full_sequence_loss_is_optimized c1wForward c1wGrad id c1wOpt c1wState
      (c1wBatch false) (c1wBatch true) rfl rfl rfl).2.1⟩

/-- C2: The target tensor a collate call returns is exactly the original
unmasked flux of the batch's samples, and the two input channels are the
flux with masked positions zeroed and the 0/1 mask indicator — masking
never alters the target. -/
theorem c2_target_is_original_flux (cfg : CollateConfig) (seed : ℕ)
    (batch : List Sample) :
    (collate_with_masking cfg seed batch).target = batch.map (fun s => s.flux)
      ∧ (collate_with_masking cfg seed batch).input
        = List.zipWith
            (fun (smp : Sample) (m : List Bool) =>
              List.zipWith
                (fun f mb =>
                  (if mb then FVal.fin 0 else f, if mb then FVal.fin 1 else FVal.fin 0))
                smp.flux m)
            batch ((collate_with_masking cfg seed batch).mask) := by
  refine ⟨rfl, ?_⟩
  simp only [collate_with_masking]
  exact collate_go_inputs cfg.min_block_size _ cfg.min_mask_ratio cfg.max_mask_ratio seed batch

/-- C3 counterexample: constructing the dataset with arrays of different
shapes succeeds, and constructing it with zero samples succeeds — no
`ShapeMismatchError` or `EmptyDatasetError` is raised. -/
theorem c3_counterexample :
    isOkE (LightCurveDataset.init [[FVal.fin 1, FVal.fin 2]] [[FVal.fin 1]]) = true
      ∧ isOkE (LightCurveDataset.init ([] : List (List FVal)) []) = true :=
  ⟨rfl, rfl⟩

/-- C3 amended: the script performs no input validation at all — dataset
construction stores the arrays unconditionally and succeeds for every
input, including mismatched shapes and an empty dataset; the error types
named by the spec do not exist in the code. -/
theorem c3_no_validation (flux timestamps : List (List FVal)) :
    LightCurveDataset.init flux timestamps
        = Except.ok ⟨flux, timestamps⟩
      ∧ isOkE (LightCurveDataset.init flux timestamps) = true :=
  ⟨rfl, rfl⟩

/-- C4 counterexample: on a batch whose loss is NaN, the optimizer step is
nevertheless executed (the parameters move from 0 to 1 under an optimizer
step that adds one) and the scheduler advances — nothing is detected or
skipped. -/
theorem c4_counterexample :
    (train_batch_step c4xForward c4xGrad id c4xOpt c4xState c4xBatch).2.total.isNan = true
      ∧ (train_batch_step c4xForward c4xGrad id c4xOpt c4xState c4xBatch).1.params = 1
      ∧ (train_batch_step c4xForward c4xGrad id c4xOpt c4xState c4xBatch).1.schedStep = 1 := by
  refine ⟨rfl, ?_, rfl⟩
  show (0 : ℚ) + 1 = 1
  norm_num

/-- C4 amended: `train_epoch` contains no NaN/Inf detection: the optimizer
step and the scheduler step are executed unconditionally for every batch —
in particular for a batch whose loss is NaN — and every batch of the epoch
is processed (the scheduler counter grows by exactly the number of
batches, so a single anomalous batch aborts nothing). -/
theorem c4_no_nan_guard {P G OS : Type}
    (forward : P → List (List (FVal × FVal)) → List (List FVal) → List (List FVal))
    (gradOracle : (P → FVal) → P → G) (clipGrad : G → G)
    (optStep : OS → P → G → P × OS)
    (st : TrainState P OS) (batches : List BatchOut) (b : BatchOut)
    (_hnan : (train_batch_step forward gradOracle clipGrad optStep st b).2.total.isNan
      = true) :
    (train_epoch forward gradOracle clipGrad optStep st batches).1.schedStep
        = st.schedStep + batches.length
      ∧ (train_batch_step forward gradOracle clipGrad optStep st b).1.params
        = (optStep st.optState st.params (clipGrad (gradOracle
            (fun p => mseGrid (forward p b.input b.time) b.target) st.params))).1
      ∧ (train_batch_step forward gradOracle clipGrad optStep st b).1.schedStep
        = st.schedStep + 1 :=
  ⟨train_epoch_go_schedStep forward gradOracle clipGrad optStep batches st _ _ _ _,
   rfl, rfl⟩

/-- Witness for C4: the NaN-loss hypothesis discharged at the concrete
NaN-producing forward oracle. -/
theorem c4_witness :
    (train_epoch c4xForward c4xGrad id c4xOpt c4xState [c4xBatch]).1.schedStep
        = c4xState.schedStep + [c4xBatch].length
      ∧ (train_batch_step c4xForward c4xGrad id c4xOpt c4xState c4xBatch).1.params
        = (c4xOpt c4xState.optState c4xState.params (id (c4xGrad
            (fun p => mseGrid (c4xForward p c4xBatch.input c4xBatch.time) c4xBatch.target)
            c4xState.params))).1
      ∧ (train_batch_step c4xForward c4xGrad id c4xOpt c4xState c4xBatch).1.schedStep
        = c4xState.schedStep + 1 :=
  c4_no_nan_guard c4xForward c4xGrad id c4xOpt c4xState [c4xBatch] c4xBatch rfl

/-- C5 counterexample: the final checkpoint written after the last epoch
contains neither a training loss nor a validation loss, so not every
persisted checkpoint contains the loss values. -/
theorem c5_counterexample :
    (save_final_checkpoint 50 (0 : ℕ) (0 : ℕ) c5Cfg).train_loss = none
      ∧ (save_final_checkpoint 50 (0 : ℕ) (0 : ℕ) c5Cfg).val_loss = none :=
  ⟨rfl, rfl⟩

/-- C5 amended: every checkpoint — best, periodic and final — contains
the model parameters, the optimizer state, the epoch index and the model
construction configuration; the best checkpoint additionally contains both
the training and validation losses, the periodic checkpoint only the
validation loss, and the final checkpoint no loss values at all. -/
theorem c5_checkpoint_contents {M O : Type} (e : ℕ) (m : M) (o : O)
    (tl vl : FVal) (cfg : TransformerConfig) :
    (save_best_checkpoint e m o tl vl cfg).model_state_dict = m
      ∧ (save_best_checkpoint e m o tl vl cfg).optimizer_state_dict = o
      ∧ (save_best_checkpoint e m o tl vl cfg).epoch = e
      ∧ (save_best_checkpoint e m o tl vl cfg).config = cfg
      ∧ (save_best_checkpoint e m o tl vl cfg).train_loss = some tl
      ∧ (save_best_checkpoint e m o tl vl cfg).val_loss = some vl
      ∧ (save_periodic_checkpoint e m o vl cfg).model_state_dict = m
      ∧ (save_periodic_checkpoint e m o vl cfg).optimizer_state_dict = o
      ∧ (save_periodic_checkpoint e m o vl cfg).epoch = e
      ∧ (save_periodic_checkpoint e m o vl cfg).config = cfg
      ∧ (save_periodic_checkpoint e m o vl cfg).val_loss = some vl
      ∧ (save_periodic_checkpoint e m o vl cfg).train_loss = none
      ∧ (save_final_checkpoint e m o cfg).model_state_dict = m
      ∧ (save_final_checkpoint e m o cfg).optimizer_state_dict = o
      ∧ (save_final_checkpoint e m o cfg).epoch = e
      ∧ (save_final_checkpoint e m o cfg).config = cfg
      ∧ (save_final_checkpoint e m o cfg).train_loss = none
      ∧ (save_final_checkpoint e m o cfg).val_loss = none :=
  ⟨rfl, rfl, rfl, rfl, rfl, rfl, rfl, rfl, rfl, rfl, rfl, rfl, rfl, rfl, rfl, rfl,
   rfl, rfl⟩

/-- C6 counterexample: a run of one completed epoch whose validation loss
is NaN writes no best checkpoint, because the Python comparison
`nan < inf` is false — so a best checkpoint need not exist after the first
completed epoch. -/
theorem c6_counterexample :
    ([FVal.nan] : List FVal).length = 1
      ∧ best_checkpoint_saves [FVal.nan] = []
      ∧ best_checkpoint_saves [FVal.pinf] = [] := by
  refine ⟨rfl, ?_, ?_⟩ <;> rfl

/-- C6 amended: a best snapshot is persisted after an epoch (overwriting
any previous best) if and only if that epoch's validation loss compares
strictly below the best seen so far under Python float comparison, the
running best starting at positive infinity; consequently a best checkpoint
exists after the first completed epoch provided the first validation loss
compares below positive infinity — which every value except NaN and
positive infinity does, but NaN does not. -/
theorem c6_best_checkpoint_iff (vals : List FVal) :
    (∀ (e : ℕ) (v : FVal),
        ((e, v) ∈ best_checkpoint_saves vals ↔
          vals.get? e = some v ∧ flt v (runBest FVal.pinf (vals.take e)) = true))
      ∧ (∀ (v : FVal) (rest : List FVal), vals = v :: rest →
          flt v FVal.pinf = true →
          ∃ later, best_checkpoint_saves vals = (0, v) :: later) := by
  constructor
  · intro e v
    have h := bestLoopGo_mem_iff vals 0 FVal.pinf e v
    simpa [best_checkpoint_saves] using h
  · intro v rest hv h
    subst hv
    refine ⟨bestLoopGo 1 v rest, ?_⟩
    simp [best_checkpoint_saves, bestLoopGo, h]

/-- Witness for C6: a concrete run whose first validation loss is finite
saves a best checkpoint at epoch 0. -/
theorem c6_witness :
    (((0, FVal.fin 2) ∈ best_checkpoint_saves [FVal.fin 2, FVal.fin 1] ↔
        ([FVal.fin 2, FVal.fin 1] : List FVal).get? 0 = some (FVal.fin 2)
          ∧ flt (FVal.fin 2)
              (runBest FVal.pinf (([FVal.fin 2, FVal.fin 1] : List FVal).take 0)) = true))
      ∧ ∃ later, best_checkpoint_saves [FVal.fin 2, FVal.fin 1] = (0, FVal.fin 2) :: later :=
  ⟨(c6_best_checkpoint_iff [FVal.fin 2, FVal.fin 1]).1 0 (FVal.fin 2),
   (c6_best_checkpoint_iff [FVal.fin 2, FVal.fin 1]).2 (FVal.fin 2) [FVal.fin 1] rfl
     (by decide)⟩

/-- C7: the train/validation split is a pure function of the seed and the
input — equal seeds give equal splits — the validation part has size
`floor(N * fraction)`, the training part the remaining `N - floor`, and
together the two index lists are a permutation of all `N` indices (so the
two invocations produce identical train and validation index sets). -/
theorem c7_split_deterministic (s1 s2 n : ℕ) (f : ℚ) (hs : s1 = s2) (h1 : f ≤ 1) :
    random_split s1 n f = random_split s2 n f
      ∧ (random_split s1 n f).2.length = val_size n f
      ∧ (random_split s1 n f).1.length = n - val_size n f
      ∧ ((random_split s1 n f).1 ++ (random_split s1 n f).2).Perm (List.range n) := by
  subst hs
  have hvs : val_size n f ≤ n := val_size_le n f h1
  refine ⟨rfl, ?_, ?_, ?_⟩
  · simp only [random_split, List.length_drop, randperm_length]
    omega
  · simp only [random_split, List.length_take, randperm_length]
    omega
  · simp only [random_split, List.take_append_drop]
    exact randperm_perm s1 n

/-- Witness for C7 at the script's default seed 42 and validation fraction
0.15 on a 10-sample dataset. -/
theorem c7_witness :
    random_split 42 10 (3 / 20) = random_split 42 10 (3 / 20)
      ∧ (random_split 42 10 (3 / 20)).2.length = val_size 10 (3 / 20)
      ∧ (random_split 42 10 (3 / 20)).1.length = 10 - val_size 10 (3 / 20)
      ∧ ((random_split 42 10 (3 / 20)).1 ++ (random_split 42 10 (3 / 20)).2).Perm
          (List.range 10) :=
  c7_split_deterministic 42 42 10 (3 / 20) rfl (by norm_num)

/-- C8: a validation pass computes no parameter or optimizer update — the
state after an epoch's train-then-validate step is exactly the state the
training pass produced, whatever the validation batches are (structurally,
`validate_epoch` receives no gradient oracle and no optimizer and returns
only metrics) — and the validation loader built by `main` with
`shuffle=False` always traverses the validation subset in the fixed
sequential order, independent of any seed. -/
theorem c8_validation_mutates_nothing {P G OS : Type}
    (forward : P → List (List (FVal × FVal)) → List (List FVal) → List (List FVal))
    (gradOracle : (P → FVal) → P → G) (clipGrad : G → G)
    (optStep : OS → P → G → P × OS)
    (st : TrainState P OS) (trainBatches valBatches : List BatchOut) :
    (epoch_step forward gradOracle clipGrad optStep st trainBatches valBatches).1
        = (train_epoch forward gradOracle clipGrad optStep st trainBatches).1
      ∧ (∀ vb1 vb2 : List BatchOut,
          (epoch_step forward gradOracle clipGrad optStep st trainBatches vb1).1
            = (epoch_step forward gradOracle clipGrad optStep st trainBatches vb2).1)
      ∧ (∀ seed n : ℕ, main_val_order seed n = List.range n) :=
  ⟨rfl, fun _ _ => rfl, fun _ _ => rfl⟩

/-- C9: the loader reports the NaN count of each array, replaces every NaN
entry of either array by zero, and returns an array unchanged when it
contains no NaN. -/
theorem c9_nan_replacement (flux timestamps : List (List FVal)) :
    (load_lightcurve_data flux timestamps).2.2.1 = countNansGrid flux
      ∧ (load_lightcurve_data flux timestamps).2.2.2 = countNansGrid timestamps
      ∧ (∀ i j : ℕ, ((flux.get? i).bind (fun r => r.get? j)) = some FVal.nan →
          (((load_lightcurve_data flux timestamps).1.get? i).bind (fun r => r.get? j))
            = some (FVal.fin 0))
      ∧ (∀ i j : ℕ, ((timestamps.get? i).bind (fun r => r.get? j)) = some FVal.nan →
          (((load_lightcurve_data flux timestamps).2.1.get? i).bind (fun r => r.get? j))
            = some (FVal.fin 0))
      ∧ (countNansGrid flux = 0 → (load_lightcurve_data flux timestamps).1 = flux)
      ∧ (countNansGrid timestamps = 0 →
          (load_lightcurve_data flux timestamps).2.1 = timestamps) := by
  refine ⟨rfl, rfl, ?_, ?_, ?_, ?_⟩
  · intro i j h
    have hp := countNansGrid_pos flux i j h
    simp only [load_lightcurve_data, if_pos hp]
    exact nanAt_map_zero flux i j h
  · intro i j h
    have hp := countNansGrid_pos timestamps i j h
    simp only [load_lightcurve_data, if_pos hp]
    exact nanAt_map_zero timestamps i j h
  · intro h0
    simp [load_lightcurve_data, h0]
  · intro h0
    simp [load_lightcurve_data, h0]

/-- Witness for C9: a flux array with one NaN is cleaned and counted; a
NaN-free timestamp array passes through unchanged. -/
theorem c9_witness :
    (load_lightcurve_data [[FVal.nan, FVal.fin 1]] [[FVal.fin 2, FVal.fin 3]]).2.2.1
        = countNansGrid [[FVal.nan, FVal.fin 1]]
      ∧ (((load_lightcurve_data [[FVal.nan, FVal.fin 1]]
            [[FVal.fin 2, FVal.fin 3]]).1.get? 0).bind (fun r => r.get? 0))
        = some (FVal.fin 0)
      ∧ (load_lightcurve_data [[FVal.nan, FVal.fin 1]] [[FVal.fin 2, FVal.fin 3]]).2.1
        = [[FVal.fin 2, FVal.fin 3]] :=
  ⟨(c9_nan_replacement [[FVal.nan, FVal.fin 1]] [[FVal.fin 2, FVal.fin 3]]).1,
   (c9_nan_replacement [[FVal.nan, FVal.fin 1]] [[FVal.fin 2, FVal.fin 3]]).2.2.1 0 0 rfl,
   (c9_nan_replacement [[FVal.nan, FVal.fin 1]] [[FVal.fin 2, FVal.fin 3]]).2.2.2.2.2 rfl⟩

/-- C10: every CLI-launched run fixes the minimum block size to 1 and the
minimum mask ratio to 0.1 whatever the arguments; only the maximum block
size and maximum mask ratio come from the CLI, and a collate call whose
maximum block size is `None` behaves exactly as one configured with
`seq_len // 2`. -/
theorem c10_cli_masking_config (a : Args) :
    (main_collate_config a).min_block_size = 1
      ∧ (main_collate_config a).min_mask_ratio = 1 / 10
      ∧ (main_collate_config a).max_block_size = some a.block_size
      ∧ (main_collate_config a).max_mask_ratio = a.mask_ratio
      ∧ (∀ (cfg : CollateConfig) (seed : ℕ) (batch : List Sample),
          cfg.max_block_size = none →
          collate_with_masking cfg seed batch
            = collate_with_masking
                { cfg with max_block_size := some (seq_len_of batch / 2) } seed batch) := by
  refine ⟨rfl, rfl, rfl, rfl, ?_⟩
  intro cfg seed batch h
  cases cfg
  simp only at h
  subst h
  rfl

/-- Witness for C10: the defaulting hypothesis discharged at a concrete
`None`-configured collate call on a length-2 sample. -/
theorem c10_witness :
    (main_collate_config c10wArgs).min_block_size = 1
      ∧ (main_collate_config c10wArgs).min_mask_ratio = 1 / 10
      ∧ collate_with_masking ⟨1, none, 1 / 10, 1 / 2⟩ 7 [c10wSample]
        = collate_with_masking ⟨1, some (seq_len_of [c10wSample] / 2), 1 / 10, 1 / 2⟩ 7
            [c10wSample] :=
  ⟨(c10_cli_masking_config c10wArgs).1,
   (c10_cli_masking_config c10wArgs).2.1,
   (c10_cli_masking_config c10wArgs).2.2.2.2 ⟨1, none, 1 / 10, 1 / 2⟩ 7 [c10wSample] rfl⟩

end LCGen
